import Mathlib

/-!
# Verification of the rate-limit-project core

Shallow embedding of the rate-limiting core of the repository:

* `MemoryStorage` — src/services/storage/memory-storage.ts
* `RedisStorage`  — src/services/storage/redis-storage.ts (the Redis
  client's primitive operations are modelled by their documented
  semantics)
* `FixedWindowRateLimiter`   — src/services/rate-limit/fixed-window.ts
* `SlidingWindowRateLimiter` — src/services/rate-limit/sliding-window.ts
* `rateLimitMiddleware`      — src/middleware/rate-limit.ts

JavaScript `number` values that can actually occur in this program are
integers (millisecond timestamps from `Date.now()`, counters, window
ids, configuration values), so storage values are modelled with `Int`.
`Date.now()` is made an explicit `now : Int` argument.  Asynchronous
methods are modelled as pure state-passing functions (a mutating method
returns the new store).
-/

namespace RateLimit

/-- The values held by the storage map: either a plain number (fixed-window
counter / window id) or an array of millisecond timestamps (sliding-window
log).  This is the runtime value space of `IRateLimitStorage`
(`number | number[]`, src/models/rate-limit-storage.ts). -/
inductive StorageValue where
  | num (n : Int)
  | arr (ts : List Int)
deriving DecidableEq, Repr

/-- The state of a `MemoryStorage` instance: the private
`Map<string, ...>` (memory-storage.ts line 4).  `none` models a key the
map does not contain. -/
def Store : Type := String → Option StorageValue

/-- A freshly constructed `MemoryStorage`: the empty map. -/
def emptyStore : Store := fun _ => none

/-- JavaScript truthiness of a storage value, as used by
`if (!storedWindow || ...)` in fixed-window.ts: the number `0` is falsy,
every other number is truthy, and an array is always truthy. -/
def jsFalsy : StorageValue → Bool
  | .num n => n == 0
  | .arr _ => false

/-- The `as number` cast in fixed-window.ts line 66: the value actually
stored under a fixed-window counter key is always a number (the
`fixed-window:...` and `sliding-window-log:...` key namespaces are
disjoint, so a timestamp array never appears there); the array case is
modelled as 0. -/
def jsAsNumber : StorageValue → Int
  | .num n => n
  | .arr _ => 0

namespace MemoryStorage

/-- `MemoryStorage.get` (memory-storage.ts lines 6-10):
`this.storage.get(key) ?? 0` — a missing key reads as the number 0. -/
def get (s : Store) (key : String) : StorageValue :=
  (s key).getD (.num 0)

/-- `MemoryStorage.set` (memory-storage.ts lines 12-14). -/
def set (s : Store) (key : String) (value : StorageValue) : Store :=
  fun k => if k = key then some value else s k

/-- `MemoryStorage.increment` (memory-storage.ts lines 16-21):
`currentValue = this.storage.get(key) ?? 0; set(key, currentValue + 1)`.
On a key holding a timestamp array, JavaScript `+ 1` would coerce to a
string; that case never occurs (increment is only applied to
fixed-window counter keys, which hold numbers) and is modelled as
leaving the array unchanged. -/
def increment (s : Store) (key : String) : Store :=
  match get s key with
  | .num n => set s key (.num (n + 1))
  | .arr ts => set s key (.arr ts)

/-- `MemoryStorage.decrement` (memory-storage.ts lines 23-28):
`newValue = Math.max(0, currentValue - 1)` — floored at zero.  The array
case is modelled as for `increment`. -/
def decrement (s : Store) (key : String) : Store :=
  match get s key with
  | .num n => set s key (.num (max 0 (n - 1)))
  | .arr ts => set s key (.arr ts)

/-- `MemoryStorage.reset` (memory-storage.ts lines 30-32):
`this.storage.delete(key)`. -/
def reset (s : Store) (key : String) : Store :=
  fun k => if k = key then none else s k

end MemoryStorage

/-- The state of a `RedisStorage` instance: the remote Redis keyspace,
restricted to the integer-valued keys this program uses.  Values are the
integers represented by the stored strings. -/
def RedisStore : Type := String → Option Int

/-- An empty Redis keyspace. -/
def emptyRedisStore : RedisStore := fun _ => none

namespace RedisStorage

/-- `RedisStorage.get` (redis-storage.ts lines 19-22):
`value ? parseInt(value, 10) : 0` — Redis returns `null` for a missing
key, which reads as 0 (the stored string "0" is truthy in JavaScript and
also parses to 0). -/
def get (s : RedisStore) (key : String) : Int :=
  (s key).getD 0

/-- `RedisStorage.set` (redis-storage.ts lines 24-26):
`SET key value.toString()`. -/
def set (s : RedisStore) (key : String) (value : Int) : RedisStore :=
  fun k => if k = key then some value else s k

/-- `RedisStorage.increment` (redis-storage.ts lines 28-30): Redis
`INCR` adds one to the integer stored at the key, creating it at 0
first if it is absent (so an absent key becomes 1). -/
def increment (s : RedisStore) (key : String) : RedisStore :=
  fun k => if k = key then some ((s key).getD 0 + 1) else s k

/-- `RedisStorage.decrement` (redis-storage.ts lines 32-34): Redis
`DECR` subtracts one from the integer stored at the key, creating it at
0 first if it is absent (so an absent key becomes -1).  Redis `DECR` has
no floor: the value may go negative. -/
def decrement (s : RedisStore) (key : String) : RedisStore :=
  fun k => if k = key then some ((s key).getD 0 - 1) else s k

/-- `RedisStorage.reset` (redis-storage.ts lines 36-38): `DEL key`. -/
def reset (s : RedisStore) (key : String) : RedisStore :=
  fun k => if k = key then none else s k

end RedisStorage

namespace FixedWindowRateLimiter

/-- `getCounterKey` (fixed-window.ts lines 39-41). -/
def getCounterKey (clientId endpoint : String) : String :=
  "fixed-window:" ++ clientId ++ ":" ++ endpoint ++ ":counter"

/-- `getWindowKey` (fixed-window.ts lines 43-45). -/
def getWindowKey (clientId endpoint : String) : String :=
  "fixed-window:" ++ clientId ++ ":" ++ endpoint ++ ":window"

/-- `FixedWindowRateLimiter.isRateLimited` (fixed-window.ts lines 47-73)
over a `MemoryStorage` instance.  `Math.floor(now / windowMs)` is
`Int.fdiv`.  Returns the decision (`true` = rate limited) and the store
after the call. -/
def isRateLimited (clientId endpoint : String) (maxRequests windowMs now : Int)
    (s : Store) : Bool × Store :=
  let counterKey := getCounterKey clientId endpoint
  let windowKey := getWindowKey clientId endpoint
  let currentWindow := Int.fdiv now windowMs
  let storedWindow := MemoryStorage.get s windowKey
  let s1 :=
    if jsFalsy storedWindow || storedWindow ≠ .num currentWindow then
      MemoryStorage.set (MemoryStorage.set s counterKey (.num 0))
        windowKey (.num currentWindow)
    else s
  let currentCount := jsAsNumber (MemoryStorage.get s1 counterKey)
  if maxRequests ≤ currentCount then
    (true, s1)
  else
    (false, MemoryStorage.increment s1 counterKey)

/-- `FixedWindowRateLimiter.getRemainingRequests`
(fixed-window.ts lines 79-99).  Read-only. -/
def getRemainingRequests (clientId endpoint : String)
    (maxRequests windowMs now : Int) (s : Store) : Int :=
  let counterKey := getCounterKey clientId endpoint
  let windowKey := getWindowKey clientId endpoint
  let currentWindow := Int.fdiv now windowMs
  let storedWindow := MemoryStorage.get s windowKey
  if jsFalsy storedWindow || storedWindow ≠ .num currentWindow then
    maxRequests
  else
    max 0 (maxRequests - jsAsNumber (MemoryStorage.get s counterKey))

/-- `FixedWindowRateLimiter.getResetTime` (fixed-window.ts lines
105-119).  Read-only. -/
def getResetTime (clientId endpoint : String) (windowMs now : Int)
    (s : Store) : Int :=
  let windowKey := getWindowKey clientId endpoint
  let currentWindow := Int.fdiv now windowMs
  let storedWindow := MemoryStorage.get s windowKey
  if jsFalsy storedWindow || storedWindow ≠ .num currentWindow then
    0
  else
    (currentWindow + 1) * windowMs - now

/-- Folding `isRateLimited` over a list of call times (the repeated
`await rateLimiter.isRateLimited(...)` loops of the tests): the list of
decisions and the final store. -/
def run (clientId endpoint : String) (maxRequests windowMs : Int)
    (times : List Int) (s : Store) : List Bool × Store :=
  match times with
  | [] => ([], s)
  | t :: ts =>
    let r := isRateLimited clientId endpoint maxRequests windowMs t s
    let rest := run clientId endpoint maxRequests windowMs ts r.2
    (r.1 :: rest.1, rest.2)

end FixedWindowRateLimiter

/-- `Math.min(...list)` for a non-empty list (sliding-window.ts line
117 guards `validTimestamps.length > 0` before taking the minimum); the
empty case never occurs and is given the value 0. -/
def listMin : List Int → Int
  | [] => 0
  | t :: ts => ts.foldl min t

namespace SlidingWindowRateLimiter

/-- `getKey` (sliding-window.ts lines 39-41). -/
def getKey (clientId endpoint : String) : String :=
  "sliding-window-log:" ++ clientId ++ ":" ++ endpoint

/-- The `Array.isArray(storedData)` branch (sliding-window.ts lines
57-61): a stored array is used as the timestamp log, anything else
(including the number 0 a missing key reads as) is treated as the empty
log. -/
def timestampsOf : StorageValue → List Int
  | .arr ts => ts
  | .num _ => []

/-- `SlidingWindowRateLimiter.isRateLimited` (sliding-window.ts lines
43-76) over a `MemoryStorage` instance.  Returns the decision and the
store after the call. -/
def isRateLimited (clientId endpoint : String) (maxRequests windowMs now : Int)
    (s : Store) : Bool × Store :=
  let key := getKey clientId endpoint
  let windowStart := now - windowMs
  let timestamps := timestampsOf (MemoryStorage.get s key)
  let timestamps := timestamps.filter (fun t => windowStart < t)
  if maxRequests ≤ (timestamps.length : Int) then
    (true, MemoryStorage.set s key (.arr timestamps))
  else
    (false, MemoryStorage.set s key (.arr (timestamps ++ [now])))

/-- `SlidingWindowRateLimiter.getRemainingRequests`
(sliding-window.ts lines 82-100).  Read-only. -/
def getRemainingRequests (clientId endpoint : String)
    (maxRequests windowMs now : Int) (s : Store) : Int :=
  let key := getKey clientId endpoint
  let windowStart := now - windowMs
  let timestamps :=
    (timestampsOf (MemoryStorage.get s key)).filter (fun t => windowStart < t)
  max 0 (maxRequests - (timestamps.length : Int))

/-- `SlidingWindowRateLimiter.getResetTime` (sliding-window.ts lines
106-122).  Read-only. -/
def getResetTime (clientId endpoint : String) (windowMs now : Int)
    (s : Store) : Int :=
  let key := getKey clientId endpoint
  let windowStart := now - windowMs
  match MemoryStorage.get s key with
  | .arr ts =>
    if ts.length > 0 then
      let validTimestamps := ts.filter (fun t => windowStart < t)
      if validTimestamps.length > 0 then
        listMin validTimestamps + windowMs - now
      else 0
    else 0
  | .num _ => 0

/-- Folding `isRateLimited` over a list of call times. -/
def run (clientId endpoint : String) (maxRequests windowMs : Int)
    (times : List Int) (s : Store) : List Bool × Store :=
  match times with
  | [] => ([], s)
  | t :: ts =>
    let r := isRateLimited clientId endpoint maxRequests windowMs t s
    let rest := run clientId endpoint maxRequests windowMs ts r.2
    (r.1 :: rest.1, rest.2)

end SlidingWindowRateLimiter

/-- One admission check against one of the two strategies sharing a
`MemoryStorage` instance (both limiters in src/middleware/rate-limit.ts
are constructed over the same `memoryStorage`). -/
inductive Check where
  | fixed (maxRequests windowMs now : Int)
  | sliding (maxRequests windowMs now : Int)

/-- Apply one check for the pair `(clientId, endpoint)`. -/
def Check.apply (clientId endpoint : String) : Check → Store → Bool × Store
  | .fixed m w n, s => FixedWindowRateLimiter.isRateLimited clientId endpoint m w n s
  | .sliding m w n, s => SlidingWindowRateLimiter.isRateLimited clientId endpoint m w n s

/-- Run a sequence of admission checks for one `(clientId, endpoint)`
pair, threading the shared store. -/
def runChecks (clientId endpoint : String) (cs : List Check) (s : Store) : Store :=
  match cs with
  | [] => s
  | ch :: rest => runChecks clientId endpoint rest (ch.apply clientId endpoint s).2

/-- All storage keys either strategy derives for a `(clientId, endpoint)`
pair. -/
def keysOf (clientId endpoint : String) : List String :=
  [FixedWindowRateLimiter.getCounterKey clientId endpoint,
   FixedWindowRateLimiter.getWindowKey clientId endpoint,
   SlidingWindowRateLimiter.getKey clientId endpoint]

/-- `IRateLimitConfig` (src/models/rate-limit.ts). -/
structure RateLimitConfig where
  maxRequests : Int
  windowMs : Int
deriving DecidableEq, Repr

/-- `IClientConfig` (src/models/client.ts); the
`{ [endpoint: string]: IRateLimitConfig }` record is modelled as an
association list. -/
structure ClientConfig where
  id : String
  rateLimits : List (String × RateLimitConfig)
deriving DecidableEq, Repr

/-- The `clients` configuration shipped in src/config/clients.ts. -/
def clients : List ClientConfig :=
  [⟨"client-1", [("foo", ⟨10, 60000⟩), ("bar", ⟨5, 60000⟩)]⟩,
   ⟨"client-2", [("foo", ⟨20, 60000⟩), ("bar", ⟨10, 60000⟩)]⟩]

/-- `RateLimitStrategy = 'fixed' | 'sliding'` (src/middleware/rate-limit.ts). -/
inductive Strategy where
  | fixed
  | sliding
deriving DecidableEq, Repr

/-- The possible outcomes of the `rateLimit` middleware
(src/middleware/rate-limit.ts lines 62-113): 401 without a client id,
401 for an unknown client, 400 without a rate-limit rule for the route,
429 when the limiter rejects, and `next()` when it admits.  The
middleware has no other outcome — in particular no invalid-configuration
one. -/
inductive MiddlewareResult where
  | unauthorized
  | invalidClient
  | noRateLimitConfig
  | rateLimited
  | passed
deriving DecidableEq, Repr

/-- The `rateLimit` middleware (src/middleware/rate-limit.ts lines
55-113) for the two named strategies, over a `MemoryStorage` instance.
The route string is the value the middleware extracts from
`req.baseUrl`; the clients list is the module-level `clients` constant,
kept as a parameter so that configurations other than the shipped one
can be examined.  `!req.clientId` is JavaScript truthiness: both a
missing and an empty client id are rejected as unauthenticated.  Header
emission and response bodies are outside the model; only the outcome and
the storage effect are kept. -/
def rateLimitMiddleware (strategy : Strategy) (clientsList : List ClientConfig)
    (clientId : Option String) (route : String) (now : Int) (s : Store) :
    MiddlewareResult × Store :=
  match clientId with
  | none => (.unauthorized, s)
  | some cid =>
    if cid = "" then (.unauthorized, s)
    else
      match clientsList.find? (fun c => c.id = cid) with
      | none => (.invalidClient, s)
      | some client =>
        match client.rateLimits.find? (fun p => p.1 = route) with
        | none => (.noRateLimitConfig, s)
        | some p =>
          let r :=
            match strategy with
            | .fixed =>
              FixedWindowRateLimiter.isRateLimited cid route
                p.2.maxRequests p.2.windowMs now s
            | .sliding =>
              SlidingWindowRateLimiter.isRateLimited cid route
                p.2.maxRequests p.2.windowMs now s
          if r.1 then (.rateLimited, r.2) else (.passed, r.2)

end RateLimit

/-! ## Basic lemmas about the storage model -/

namespace RateLimit

theorem MemoryStorage.get_set_self (s : Store) (k : String) (v : StorageValue) :
    MemoryStorage.get (MemoryStorage.set s k v) k = v := by
  simp [MemoryStorage.get, MemoryStorage.set]

theorem MemoryStorage.get_set_ne (s : Store) (k q : String) (v : StorageValue)
    (h : q ≠ k) :
    MemoryStorage.get (MemoryStorage.set s k v) q = MemoryStorage.get s q := by
  simp [MemoryStorage.get, MemoryStorage.set, h]

theorem MemoryStorage.set_apply_ne (s : Store) (k q : String) (v : StorageValue)
    (h : q ≠ k) : MemoryStorage.set s k v q = s q := by
  simp [MemoryStorage.set, h]

theorem FixedWindowRateLimiter.counterKey_ne_windowKey (c e : String) :
    FixedWindowRateLimiter.getCounterKey c e
      ≠ FixedWindowRateLimiter.getWindowKey c e := by
  intro h
  have hd := congrArg String.data h
  simp [FixedWindowRateLimiter.getCounterKey,
    FixedWindowRateLimiter.getWindowKey] at hd

/-- Bounds characterizing `Math.floor(now / windowMs) = w` for a
positive `windowMs`. -/
theorem fdiv_bounds {t windowMs w : Int} (hwin : 0 < windowMs)
    (h : Int.fdiv t windowMs = w) : w * windowMs ≤ t ∧ t < (w + 1) * windowMs := by
  subst h
  refine ⟨?_, Int.lt_fdiv_add_one_mul_self t hwin⟩
  rw [Int.fdiv_eq_ediv _ (le_of_lt hwin)]
  exact Int.ediv_mul_le t (ne_of_gt hwin)

end RateLimit

/-! ## Concrete scenarios and counterexamples -/

namespace RateLimit

/-- Claim C2: with maxRequests=10 and windowMs=60000, starting from empty
storage, ten checks at time 59900 (windowMs - 100) followed by one check
at time 60100 (200ms later, across the boundary): the fixed-window
strategy admits the eleventh request (`false`) while the sliding-window
strategy rejects it (`true`). -/
theorem boundary_burst_divergence :
    (FixedWindowRateLimiter.run "client-1" "foo" 10 60000
        (List.replicate 10 59900 ++ [60100]) emptyStore).1
      = List.replicate 10 false ++ [false]
    ∧ (SlidingWindowRateLimiter.run "client-1" "foo" 10 60000
        (List.replicate 10 59900 ++ [60100]) emptyStore).1
      = List.replicate 10 false ++ [true] := by
  constructor <;> decide

/-- Claim C1, counterexample: in window 0 (times 0 and 5, windowMs=10)
with maxRequests=1 and empty starting storage, the second fixed-window
check is admitted (`false`) although the claim requires the
(maxRequests+1)-th check of the same window to be rejected.  The stored
window id 0 is falsy in JavaScript, so `!storedWindow` treats it as
absent and every check in window 0 resets the counter. -/
theorem fixedWindow_window_zero_never_rejects :
    (FixedWindowRateLimiter.run "client-1" "foo" 1 10 [0, 5] emptyStore).1
        = [false, false]
    ∧ (FixedWindowRateLimiter.run "client-1" "foo" 1 10 [0, 5] emptyStore).1
        ≠ List.replicate 1 false ++ [true] := by
  constructor <;> decide

/-- Claim C3, counterexample: the pairs ("a:b", "c") and ("a", "b:c")
differ in both components, yet both derive the storage key
`fixed-window:a:b:c:...`.  With maxRequests=1, windowMs=10 at time 10, a
check for ("a", "b:c") on a fresh store is admitted, but after one check
for ("a:b", "c") it is rejected: checks for one pair changed the
decision observed for the other. -/
theorem colon_injection_breaks_isolation :
    ("a:b", "c") ≠ (("a", "b:c") : String × String)
    ∧ (FixedWindowRateLimiter.isRateLimited "a" "b:c" 1 10 10 emptyStore).1 = false
    ∧ (FixedWindowRateLimiter.isRateLimited "a" "b:c" 1 10 10
        (FixedWindowRateLimiter.isRateLimited "a:b" "c" 1 10 10 emptyStore).2).1
      = true := by
  refine ⟨by decide, by decide, by decide⟩

/-- Claim C4: both storage backends return the number 0 — not an absent
marker — for a key that was never written, indistinguishable from a
stored count of 0.  This contradicts the `IRateLimitStorage.get`
contract (src/models/rate-limit-storage.ts: "null if not found") and the
spec's `get(key) -> value | absent`. -/
theorem get_absent_returns_zero :
    MemoryStorage.get emptyStore "some-key" = .num 0
    ∧ MemoryStorage.get
        (MemoryStorage.set emptyStore "some-key" (.num 0)) "some-key" = .num 0
    ∧ RedisStorage.get emptyRedisStore "some-key" = 0
    ∧ RedisStorage.get
        (RedisStorage.set emptyRedisStore "some-key" 0) "some-key" = 0 := by
  refine ⟨by decide, by decide, by decide, by decide⟩

/-- Claim C5, counterexample: decrementing a never-written key on the
remote backend leaves -1 (Redis `DECR` has no floor), not
`max 0 (0 - 1) = 0` as the claim requires. -/
theorem redis_decrement_goes_negative :
    RedisStorage.get (RedisStorage.decrement emptyRedisStore "k") "k" = -1
    ∧ RedisStorage.get (RedisStorage.decrement emptyRedisStore "k") "k"
        ≠ max 0 (RedisStorage.get emptyRedisStore "k" - 1) := by
  constructor <;> decide

/-- Claim C5, amended: the in-memory backend's decrement subtracts one
floored at zero, while the remote backend's decrement subtracts one with
no floor (an absent key becomes -1) and can go negative. -/
theorem decrement_semantics :
    (∀ (s : Store) (k : String) (n : Int), MemoryStorage.get s k = .num n →
      MemoryStorage.get (MemoryStorage.decrement s k) k = .num (max 0 (n - 1)))
    ∧ ∀ (s : RedisStore) (k : String),
      RedisStorage.get (RedisStorage.decrement s k) k = RedisStorage.get s k - 1 := by
  constructor
  · intro s k n h
    simp [MemoryStorage.decrement, h, MemoryStorage.get_set_self]
  · intro s k
    simp [RedisStorage.decrement, RedisStorage.get]

/-- Witness for `decrement_semantics` at the concrete store with the key
absent (reading as count 0). -/
theorem decrement_semantics_witness :
    MemoryStorage.get (MemoryStorage.decrement emptyStore "k") "k"
      = .num (max 0 (0 - 1)) :=
  decrement_semantics.1 emptyStore "k" 0 (by decide)

/-- Claim C6, counterexample: a request whose resolved configuration has
maxRequests=0 (non-positive) is not rejected before storage access: the
middleware consults the fixed-window limiter, the limiter writes the
window id to storage (the key goes from absent to 1), and a normal
reject decision (HTTP 429) is produced.  No InvalidConfig outcome exists
in the middleware. -/
theorem nonpositive_maxRequests_reaches_storage :
    (rateLimitMiddleware .fixed [⟨"c", [("foo", ⟨0, 10⟩)]⟩]
        (some "c") "foo" 10 emptyStore).1 = .rateLimited
    ∧ (rateLimitMiddleware .fixed [⟨"c", [("foo", ⟨0, 10⟩)]⟩]
        (some "c") "foo" 10 emptyStore).2
        (FixedWindowRateLimiter.getWindowKey "c" "foo") = some (.num 1)
    ∧ emptyStore (FixedWindowRateLimiter.getWindowKey "c" "foo") = none := by
  refine ⟨by decide, by decide, by decide⟩

/-- Claim C8, counterexample: after one fixed-window check at time 0
(windowMs=10), the stored window id is 0 and still current at time 5,
yet `getResetTime` returns 0 instead of a value in (0, windowMs]: the
stored window id 0 is falsy and is treated as absent. -/
theorem fixedWindow_resetTime_zero_in_window_zero :
    ((FixedWindowRateLimiter.isRateLimited "c" "e" 1 10 0 emptyStore).2
        (FixedWindowRateLimiter.getWindowKey "c" "e") = some (.num 0))
    ∧ Int.fdiv 5 10 = 0
    ∧ FixedWindowRateLimiter.getResetTime "c" "e" 10 5
        (FixedWindowRateLimiter.isRateLimited "c" "e" 1 10 0 emptyStore).2 = 0 := by
  refine ⟨by decide, by decide, by decide⟩

/-- Claim C9, counterexample: in window 0 (time 0, windowMs=10,
maxRequests=10) a fixed-window check on a fresh store is admitted, yet
`getRemainingRequests` evaluated at the same time is 10 both before and
after the admitted request — it does not decrease. -/
theorem fixedWindow_remaining_not_decreasing_window_zero :
    (FixedWindowRateLimiter.isRateLimited "c" "e" 10 10 0 emptyStore).1 = false
    ∧ FixedWindowRateLimiter.getRemainingRequests "c" "e" 10 10 0 emptyStore = 10
    ∧ FixedWindowRateLimiter.getRemainingRequests "c" "e" 10 10 0
        (FixedWindowRateLimiter.isRateLimited "c" "e" 10 10 0 emptyStore).2 = 10 := by
  refine ⟨by decide, by decide, by decide⟩

end RateLimit

/-! ## Robustness of the sliding-window strategy and the missing
InvalidConfig boundary -/

namespace RateLimit

/-- Claim C10: if the value stored under a sliding-window key is not an
array (for example a plain number left by the fixed-window algorithm or
by a backend's absent-as-0 read), the sliding-window strategy treats it
exactly as an empty log: with maxRequests ≥ 1 the next request is
admitted and logged as the only timestamp, and the remaining count is
the full maxRequests. -/
theorem sliding_tolerates_non_array_value
    (c e : String) (m windowMs now : Int) (s : Store) (n : Int)
    (h : MemoryStorage.get s (SlidingWindowRateLimiter.getKey c e) = .num n)
    (hm : 1 ≤ m) :
    (SlidingWindowRateLimiter.isRateLimited c e m windowMs now s).1 = false
    ∧ (SlidingWindowRateLimiter.isRateLimited c e m windowMs now s).2
        (SlidingWindowRateLimiter.getKey c e) = some (.arr [now])
    ∧ SlidingWindowRateLimiter.getRemainingRequests c e m windowMs now s = m := by
  have hts : SlidingWindowRateLimiter.timestampsOf
      (MemoryStorage.get s (SlidingWindowRateLimiter.getKey c e)) = [] := by
    rw [h]; rfl
  have hneg : ¬ (m ≤ (0 : Int)) := by omega
  refine ⟨?_, ?_, ?_⟩
  · simp [SlidingWindowRateLimiter.isRateLimited, hts, hneg]
  · simp [SlidingWindowRateLimiter.isRateLimited, hts, hneg, MemoryStorage.set]
  · simp [SlidingWindowRateLimiter.getRemainingRequests, hts]
    omega

/-- Witness for `sliding_tolerates_non_array_value`: a store holding the
plain number 7 under the sliding-window key. -/
theorem sliding_tolerates_non_array_value_witness :
    (SlidingWindowRateLimiter.isRateLimited "c" "e" 1 10 5
        (MemoryStorage.set emptyStore
          (SlidingWindowRateLimiter.getKey "c" "e") (.num 7))).1 = false
    ∧ (SlidingWindowRateLimiter.isRateLimited "c" "e" 1 10 5
        (MemoryStorage.set emptyStore
          (SlidingWindowRateLimiter.getKey "c" "e") (.num 7))).2
        (SlidingWindowRateLimiter.getKey "c" "e") = some (.arr [5])
    ∧ SlidingWindowRateLimiter.getRemainingRequests "c" "e" 1 10 5
        (MemoryStorage.set emptyStore
          (SlidingWindowRateLimiter.getKey "c" "e") (.num 7)) = 1 :=
  sliding_tolerates_non_array_value "c" "e" 1 10 5
    (MemoryStorage.set emptyStore (SlidingWindowRateLimiter.getKey "c" "e") (.num 7))
    7 (by decide) (by decide)

/-- A fixed-window admission check with non-positive maxRequests always
produces the decision `true` (rate limited), in any state whose counter
key holds a non-negative number or is absent. -/
theorem fixed_nonpos_always_rejects
    (c e : String) (m windowMs now : Int) (s : Store) (n : Int)
    (hm : m ≤ 0) (hn : 0 ≤ n)
    (hc : MemoryStorage.get s (FixedWindowRateLimiter.getCounterKey c e) = .num n) :
    (FixedWindowRateLimiter.isRateLimited c e m windowMs now s).1 = true := by
  unfold FixedWindowRateLimiter.isRateLimited
  set ck := FixedWindowRateLimiter.getCounterKey c e
  set wk := FixedWindowRateLimiter.getWindowKey c e
  have hne : ck ≠ wk := FixedWindowRateLimiter.counterKey_ne_windowKey c e
  cases hcond : (jsFalsy (MemoryStorage.get s wk)
      || decide (MemoryStorage.get s wk ≠ StorageValue.num (Int.fdiv now windowMs)))
  · have hmn : m ≤ n := le_trans hm hn
    simp only [hcond, Bool.false_eq_true, if_false]
    rw [hc]
    simp [jsAsNumber, hmn]
  · simp only [hcond, if_true]
    rw [MemoryStorage.get_set_ne _ _ _ _ hne, MemoryStorage.get_set_self]
    simp [jsAsNumber, hm]

/-- Claim C6, amended: no InvalidConfig validation exists.  A request
whose resolved configuration has non-positive maxRequests is not
rejected at the boundary: the middleware consults the strategy, the
strategy performs its storage reads and writes, and a normal rate-limit
decision is produced — with the fixed-window strategy, always a 429
rejection (count ≥ 0 ≥ maxRequests). -/
theorem no_invalid_config_boundary_check
    (clientsList : List ClientConfig) (cid route : String)
    (client : ClientConfig) (p : String × RateLimitConfig)
    (now : Int) (s : Store) (n : Int)
    (hcid : cid ≠ "")
    (hfind : clientsList.find? (fun c => c.id = cid) = some client)
    (hroute : client.rateLimits.find? (fun q => q.1 = route) = some p)
    (hm : p.2.maxRequests ≤ 0)
    (hn : 0 ≤ n)
    (hc : MemoryStorage.get s (FixedWindowRateLimiter.getCounterKey cid route)
      = .num n) :
    rateLimitMiddleware .fixed clientsList (some cid) route now s
      = (.rateLimited,
         (FixedWindowRateLimiter.isRateLimited cid route
           p.2.maxRequests p.2.windowMs now s).2) := by
  have hrej := fixed_nonpos_always_rejects cid route
    p.2.maxRequests p.2.windowMs now s n hm hn hc
  simp [rateLimitMiddleware, hcid, hfind, hroute, hrej]

/-- Witness for `no_invalid_config_boundary_check`: a one-client
configuration with maxRequests=0 for route "foo". -/
theorem no_invalid_config_boundary_check_witness :
    rateLimitMiddleware .fixed [⟨"c", [("foo", ⟨0, 10⟩)]⟩]
        (some "c") "foo" 10 emptyStore
      = (.rateLimited,
         (FixedWindowRateLimiter.isRateLimited "c" "foo" 0 10 10 emptyStore).2) :=
  no_invalid_config_boundary_check [⟨"c", [("foo", ⟨0, 10⟩)]⟩] "c" "foo"
    ⟨"c", [("foo", ⟨0, 10⟩)]⟩ ("foo", ⟨0, 10⟩) 10 emptyStore 0
    (by decide) (by decide) (by decide) (by decide) (by decide) (by decide)

/-- Claim C7: the sliding-window log stays bounded.  After any
successful admission check the stored log has at most maxRequests
entries inside the window, and any later check (admitted or rejected)
preserves the bound on the stored log's size. -/
theorem sliding_log_bounded_invariant
    (c e : String) (m windowMs now : Int) (s : Store) :
    ((SlidingWindowRateLimiter.isRateLimited c e m windowMs now s).1 = false →
      ((((SlidingWindowRateLimiter.timestampsOf (MemoryStorage.get (SlidingWindowRateLimiter.isRateLimited c e m windowMs now s).2 (SlidingWindowRateLimiter.getKey c e))).filter (fun t => now - windowMs < t)).length : Int) ≤ m))
    ∧ ((((SlidingWindowRateLimiter.timestampsOf (MemoryStorage.get s (SlidingWindowRateLimiter.getKey c e))).length : Int) ≤ m) →
      (((SlidingWindowRateLimiter.timestampsOf (MemoryStorage.get (SlidingWindowRateLimiter.isRateLimited c e m windowMs now s).2 (SlidingWindowRateLimiter.getKey c e))).length : Int) ≤ m)) := by
  set key := SlidingWindowRateLimiter.getKey c e with hkey
  set l := SlidingWindowRateLimiter.timestampsOf (MemoryStorage.get s key) with hl
  set f := l.filter (fun t => now - windowMs < t) with hf
  have hrl : SlidingWindowRateLimiter.isRateLimited c e m windowMs now s
      = if m ≤ (f.length : Int) then (true, MemoryStorage.set s key (.arr f))
        else (false, MemoryStorage.set s key (.arr (f ++ [now]))) := rfl
  have hfle : f.length ≤ l.length := by
    rw [hf]; exact List.length_filter_le _ _
  rw [hrl]
  by_cases hcond : m ≤ (f.length : Int)
  · rw [if_pos hcond]
    constructor
    · intro hfalse; simp at hfalse
    · intro hlen
      rw [MemoryStorage.get_set_self]
      show ((f.length : Int)) ≤ m
      omega
  · rw [if_neg hcond]
    constructor
    · intro _
      rw [MemoryStorage.get_set_self]
      show (((f ++ [now]).filter (fun t => now - windowMs < t)).length : Int) ≤ m
      have h2 : ((f ++ [now]).filter (fun t => now - windowMs < t)).length
          ≤ (f ++ [now]).length := List.length_filter_le _ _
      have h3 : (f ++ [now]).length = f.length + 1 := by simp
      omega
    · intro _
      rw [MemoryStorage.get_set_self]
      show (((f ++ [now]).length : Int)) ≤ m
      have h3 : (f ++ [now]).length = f.length + 1 := by simp
      omega

/-- Witness for `sliding_log_bounded_invariant`: an admitted check at
time 5 with maxRequests=2 on the empty store, and preservation from the
bounded empty log. -/
theorem sliding_log_bounded_invariant_witness :
    ((((SlidingWindowRateLimiter.timestampsOf (MemoryStorage.get (SlidingWindowRateLimiter.isRateLimited "c" "e" 2 10 5 emptyStore).2 (SlidingWindowRateLimiter.getKey "c" "e"))).filter (fun t => (5 : Int) - 10 < t)).length : Int) ≤ 2)
    ∧ ((((SlidingWindowRateLimiter.timestampsOf (MemoryStorage.get (SlidingWindowRateLimiter.isRateLimited "c" "e" 2 10 5 emptyStore).2 (SlidingWindowRateLimiter.getKey "c" "e"))).length : Int) ≤ 2)) :=
  ⟨(sliding_log_bounded_invariant "c" "e" 2 10 5 emptyStore).1 (by decide),
   (sliding_log_bounded_invariant "c" "e" 2 10 5 emptyStore).2 (by decide)⟩

end RateLimit

/-! ## Reset-time range -/

namespace RateLimit

theorem timestampsOf_num (n : Int) :
    SlidingWindowRateLimiter.timestampsOf (.num n) = [] := rfl

theorem timestampsOf_arr (ts : List Int) :
    SlidingWindowRateLimiter.timestampsOf (.arr ts) = ts := rfl

/-- `Math.min` over a non-empty list is one of its elements. -/
theorem foldl_min_mem (ts : List Int) : ∀ (t : Int), ts.foldl min t ∈ t :: ts := by
  induction ts with
  | nil => intro t; simp
  | cons h r ih =>
    intro t
    have hm := ih (min t h)
    simp only [List.foldl_cons]
    rcases List.mem_cons.1 hm with h1 | h1
    · rw [h1]
      rcases min_choice t h with h2 | h2 <;> rw [h2] <;> simp
    · simp only [List.mem_cons] at h1 ⊢
      tauto

theorem listMin_mem {l : List Int} (h : l ≠ []) : listMin l ∈ l := by
  cases l with
  | nil => exact absurd rfl h
  | cons t ts => exact foldl_min_mem ts t

/-- Claim C8, amended: for positive windowMs and every state whose
recorded timestamps are all ≤ now, `getResetTime` returns 0 exactly when
the window or log is empty or stale — for the fixed window: when the
stored window value is falsy (absent reads as 0, and a stored window id
0 is indistinguishable from that) or differs from floor(now/windowMs);
for the sliding window: when no surviving timestamp > now - windowMs
exists — and in every other case the result lies in (0, windowMs]. -/
theorem resetTime_range
    (c e : String) (windowMs now : Int) (s : Store)
    (hwin : 1 ≤ windowMs)
    (hts : ∀ t ∈ SlidingWindowRateLimiter.timestampsOf
      (MemoryStorage.get s (SlidingWindowRateLimiter.getKey c e)), t ≤ now) :
    ((FixedWindowRateLimiter.getResetTime c e windowMs now s = 0
        ↔ (jsFalsy (MemoryStorage.get s (FixedWindowRateLimiter.getWindowKey c e)) = true
          ∨ MemoryStorage.get s (FixedWindowRateLimiter.getWindowKey c e)
              ≠ .num (Int.fdiv now windowMs)))
      ∧ (MemoryStorage.get s (FixedWindowRateLimiter.getWindowKey c e)
            = .num (Int.fdiv now windowMs) →
          jsFalsy (MemoryStorage.get s (FixedWindowRateLimiter.getWindowKey c e)) = false →
          0 < FixedWindowRateLimiter.getResetTime c e windowMs now s
          ∧ FixedWindowRateLimiter.getResetTime c e windowMs now s ≤ windowMs))
    ∧ ((SlidingWindowRateLimiter.getResetTime c e windowMs now s = 0
        ↔ (SlidingWindowRateLimiter.timestampsOf
            (MemoryStorage.get s (SlidingWindowRateLimiter.getKey c e))).filter
            (fun t => now - windowMs < t) = [])
      ∧ ((SlidingWindowRateLimiter.timestampsOf
            (MemoryStorage.get s (SlidingWindowRateLimiter.getKey c e))).filter
            (fun t => now - windowMs < t) ≠ [] →
          0 < SlidingWindowRateLimiter.getResetTime c e windowMs now s
          ∧ SlidingWindowRateLimiter.getResetTime c e windowMs now s ≤ windowMs)) := by
  have hb := @fdiv_bounds now windowMs (Int.fdiv now windowMs)
    (by omega : (0:Int) < windowMs) rfl
  have hring : (Int.fdiv now windowMs + 1) * windowMs
      = Int.fdiv now windowMs * windowMs + windowMs := by ring
  constructor
  · -- fixed window
    unfold FixedWindowRateLimiter.getResetTime
    set wk := FixedWindowRateLimiter.getWindowKey c e
    cases hcb : (jsFalsy (MemoryStorage.get s wk)
        || decide (MemoryStorage.get s wk ≠ StorageValue.num (Int.fdiv now windowMs)))
    · have hp : jsFalsy (MemoryStorage.get s wk) = false
          ∧ MemoryStorage.get s wk = StorageValue.num (Int.fdiv now windowMs) := by
        simpa using hcb
      simp only [hcb, Bool.false_eq_true, if_false]
      constructor
      · constructor
        · intro h0
          exfalso
          have := hb.2
          linarith
        · intro hor
          rcases hor with h1 | h1
          · rw [hp.1] at h1; cases h1
          · exact absurd hp.2 h1
      · intro _ _
        constructor
        · have := hb.2; linarith
        · have := hb.1; linarith
    · have hp : jsFalsy (MemoryStorage.get s wk) = true
          ∨ MemoryStorage.get s wk ≠ StorageValue.num (Int.fdiv now windowMs) := by
        simpa using hcb
      simp only [hcb, if_true]
      constructor
      · constructor
        · intro _
          exact hp
        · intro _
          simp
      · intro heq hfal
        rcases hp with h1 | h1
        · rw [hfal] at h1; cases h1
        · exact absurd heq h1
  · -- sliding window
    unfold SlidingWindowRateLimiter.getResetTime
    set key := SlidingWindowRateLimiter.getKey c e
    rcases hv : MemoryStorage.get s key with n | ts
    · rw [hv] at hts
      simp only [hv]
      simp [timestampsOf_num]
    · rw [hv] at hts
      rw [timestampsOf_arr] at hts
      simp only [hv]
      rw [timestampsOf_arr]
      by_cases hl : ts = []
      · subst hl
        simp
      · rw [if_pos (List.length_pos.2 hl)]
        set valid := ts.filter (fun t => now - windowMs < t) with hvalid
        by_cases hve : valid = []
        · rw [if_neg (by rw [hve]; simp)]
          constructor
          · exact iff_of_true rfl hve
          · intro h; exact absurd hve h
        · rw [if_pos (List.length_pos.2 hve)]
          have hmem : listMin valid ∈ valid := listMin_mem hve
          have hpred : now - windowMs < listMin valid := by
            have := List.of_mem_filter hmem
            simpa using this
          have hmem2 : listMin valid ∈ ts := List.mem_of_mem_filter hmem
          have hle : listMin valid ≤ now := hts _ hmem2
          constructor
          · exact iff_of_false (by omega) hve
          · intro _
            omega

end RateLimit

namespace RateLimit

/-- Witness for `resetTime_range`: window id 1 stored for the fixed
window and a log [12] for the sliding window, evaluated at time 15 with
windowMs 10; both reset times are in (0, 10]. -/
theorem resetTime_range_witness :
    ((FixedWindowRateLimiter.getResetTime "c" "e" 10 15
        (MemoryStorage.set (MemoryStorage.set emptyStore
          (FixedWindowRateLimiter.getWindowKey "c" "e") (.num 1))
          (SlidingWindowRateLimiter.getKey "c" "e") (.arr [12])) = 0
        ↔ (jsFalsy (MemoryStorage.get (MemoryStorage.set (MemoryStorage.set emptyStore
            (FixedWindowRateLimiter.getWindowKey "c" "e") (.num 1))
            (SlidingWindowRateLimiter.getKey "c" "e") (.arr [12]))
            (FixedWindowRateLimiter.getWindowKey "c" "e")) = true
          ∨ MemoryStorage.get (MemoryStorage.set (MemoryStorage.set emptyStore
              (FixedWindowRateLimiter.getWindowKey "c" "e") (.num 1))
              (SlidingWindowRateLimiter.getKey "c" "e") (.arr [12]))
              (FixedWindowRateLimiter.getWindowKey "c" "e")
              ≠ .num (Int.fdiv 15 10)))
      ∧ (MemoryStorage.get (MemoryStorage.set (MemoryStorage.set emptyStore
            (FixedWindowRateLimiter.getWindowKey "c" "e") (.num 1))
            (SlidingWindowRateLimiter.getKey "c" "e") (.arr [12]))
            (FixedWindowRateLimiter.getWindowKey "c" "e")
            = .num (Int.fdiv 15 10) →
          jsFalsy (MemoryStorage.get (MemoryStorage.set (MemoryStorage.set emptyStore
            (FixedWindowRateLimiter.getWindowKey "c" "e") (.num 1))
            (SlidingWindowRateLimiter.getKey "c" "e") (.arr [12]))
            (FixedWindowRateLimiter.getWindowKey "c" "e")) = false →
          0 < FixedWindowRateLimiter.getResetTime "c" "e" 10 15
            (MemoryStorage.set (MemoryStorage.set emptyStore
              (FixedWindowRateLimiter.getWindowKey "c" "e") (.num 1))
              (SlidingWindowRateLimiter.getKey "c" "e") (.arr [12]))
          ∧ FixedWindowRateLimiter.getResetTime "c" "e" 10 15
            (MemoryStorage.set (MemoryStorage.set emptyStore
              (FixedWindowRateLimiter.getWindowKey "c" "e") (.num 1))
              (SlidingWindowRateLimiter.getKey "c" "e") (.arr [12])) ≤ 10))
    ∧ ((SlidingWindowRateLimiter.getResetTime "c" "e" 10 15
        (MemoryStorage.set (MemoryStorage.set emptyStore
          (FixedWindowRateLimiter.getWindowKey "c" "e") (.num 1))
          (SlidingWindowRateLimiter.getKey "c" "e") (.arr [12])) = 0
        ↔ (SlidingWindowRateLimiter.timestampsOf
            (MemoryStorage.get (MemoryStorage.set (MemoryStorage.set emptyStore
              (FixedWindowRateLimiter.getWindowKey "c" "e") (.num 1))
              (SlidingWindowRateLimiter.getKey "c" "e") (.arr [12]))
              (SlidingWindowRateLimiter.getKey "c" "e"))).filter
            (fun t => (15 : Int) - 10 < t) = [])
      ∧ ((SlidingWindowRateLimiter.timestampsOf
            (MemoryStorage.get (MemoryStorage.set (MemoryStorage.set emptyStore
              (FixedWindowRateLimiter.getWindowKey "c" "e") (.num 1))
              (SlidingWindowRateLimiter.getKey "c" "e") (.arr [12]))
              (SlidingWindowRateLimiter.getKey "c" "e"))).filter
            (fun t => (15 : Int) - 10 < t) ≠ [] →
          0 < SlidingWindowRateLimiter.getResetTime "c" "e" 10 15
            (MemoryStorage.set (MemoryStorage.set emptyStore
              (FixedWindowRateLimiter.getWindowKey "c" "e") (.num 1))
              (SlidingWindowRateLimiter.getKey "c" "e") (.arr [12]))
          ∧ SlidingWindowRateLimiter.getResetTime "c" "e" 10 15
            (MemoryStorage.set (MemoryStorage.set emptyStore
              (FixedWindowRateLimiter.getWindowKey "c" "e") (.num 1))
              (SlidingWindowRateLimiter.getKey "c" "e") (.arr [12])) ≤ 10)) :=
  resetTime_range "c" "e" 10 15
    (MemoryStorage.set (MemoryStorage.set emptyStore
      (FixedWindowRateLimiter.getWindowKey "c" "e") (.num 1))
      (SlidingWindowRateLimiter.getKey "c" "e") (.arr [12]))
    (by decide) (by decide)

end RateLimit

/-! ## Remaining-requests accounting -/

namespace RateLimit

/-- Unfolding of one fixed-window check when the stored window id is a
non-zero number equal to the current window: no reset happens; the
counter is read and, below the limit, incremented. -/
theorem fixed_step_same_window
    (c e : String) (m windowMs now w n : Int) (s : Store)
    (hw : MemoryStorage.get s (FixedWindowRateLimiter.getWindowKey c e) = .num w)
    (hwnz : w ≠ 0) (hnoww : Int.fdiv now windowMs = w)
    (hc : MemoryStorage.get s (FixedWindowRateLimiter.getCounterKey c e) = .num n) :
    FixedWindowRateLimiter.isRateLimited c e m windowMs now s
      = if m ≤ n then (true, s)
        else (false, MemoryStorage.set s
          (FixedWindowRateLimiter.getCounterKey c e) (.num (n + 1))) := by
  simp only [FixedWindowRateLimiter.isRateLimited]
  rw [hnoww, hw]
  have hcond : (jsFalsy (StorageValue.num w)
      || decide (StorageValue.num w ≠ StorageValue.num w)) = false := by
    simp [jsFalsy, hwnz]
  rw [hcond]
  simp only [Bool.false_eq_true, if_false, hc, jsAsNumber]
  by_cases hmn : m ≤ n
  · simp [hmn]
  · simp [hmn, MemoryStorage.increment, hc]

/-- Unfolding of one fixed-window check when the stored window value is
falsy or differs from the current window: counter and window id are
rewritten, then the counter (now 0) is checked and incremented. -/
theorem fixed_step_fresh
    (c e : String) (m windowMs now : Int) (s : Store)
    (hcond : jsFalsy (MemoryStorage.get s (FixedWindowRateLimiter.getWindowKey c e)) = true
      ∨ MemoryStorage.get s (FixedWindowRateLimiter.getWindowKey c e)
          ≠ .num (Int.fdiv now windowMs)) :
    FixedWindowRateLimiter.isRateLimited c e m windowMs now s
      = if m ≤ 0 then
          (true, MemoryStorage.set
            (MemoryStorage.set s (FixedWindowRateLimiter.getCounterKey c e) (.num 0))
            (FixedWindowRateLimiter.getWindowKey c e) (.num (Int.fdiv now windowMs)))
        else
          (false, MemoryStorage.set (MemoryStorage.set
            (MemoryStorage.set s (FixedWindowRateLimiter.getCounterKey c e) (.num 0))
            (FixedWindowRateLimiter.getWindowKey c e) (.num (Int.fdiv now windowMs)))
            (FixedWindowRateLimiter.getCounterKey c e) (.num 1)) := by
  have hne : FixedWindowRateLimiter.getCounterKey c e
      ≠ FixedWindowRateLimiter.getWindowKey c e :=
    FixedWindowRateLimiter.counterKey_ne_windowKey c e
  simp only [FixedWindowRateLimiter.isRateLimited]
  have hcb : (jsFalsy (MemoryStorage.get s (FixedWindowRateLimiter.getWindowKey c e))
      || decide (MemoryStorage.get s (FixedWindowRateLimiter.getWindowKey c e)
        ≠ StorageValue.num (Int.fdiv now windowMs))) = true := by
    rcases hcond with h1 | h1
    · simp [h1]
    · simp [h1]
  rw [hcb]
  simp only [if_true]
  have hget0 : MemoryStorage.get
      (MemoryStorage.set
        (MemoryStorage.set s (FixedWindowRateLimiter.getCounterKey c e) (.num 0))
        (FixedWindowRateLimiter.getWindowKey c e) (.num (Int.fdiv now windowMs)))
      (FixedWindowRateLimiter.getCounterKey c e) = .num 0 := by
    rw [MemoryStorage.get_set_ne _ _ _ _ hne, MemoryStorage.get_set_self]
  rw [hget0]
  simp only [jsAsNumber]
  by_cases hm0 : m ≤ 0
  · simp [hm0]
  · simp [hm0, MemoryStorage.increment, hget0]

/-- `getRemainingRequests` when the stored window id is a non-zero
number equal to the current window. -/
theorem fixed_remaining_same_window
    (c e : String) (m windowMs now w n : Int) (s : Store)
    (hw : MemoryStorage.get s (FixedWindowRateLimiter.getWindowKey c e) = .num w)
    (hwnz : w ≠ 0) (hnoww : Int.fdiv now windowMs = w)
    (hc : MemoryStorage.get s (FixedWindowRateLimiter.getCounterKey c e) = .num n) :
    FixedWindowRateLimiter.getRemainingRequests c e m windowMs now s
      = max 0 (m - n) := by
  simp only [FixedWindowRateLimiter.getRemainingRequests]
  rw [hnoww, hw, hc]
  have hcond : (jsFalsy (StorageValue.num w)
      || decide (StorageValue.num w ≠ StorageValue.num w)) = false := by
    simp [jsFalsy, hwnz]
  rw [hcond]
  simp [jsAsNumber]

/-- `getRemainingRequests` when the stored window value is falsy or
differs from the current window. -/
theorem fixed_remaining_fresh
    (c e : String) (m windowMs now : Int) (s : Store)
    (hcond : jsFalsy (MemoryStorage.get s (FixedWindowRateLimiter.getWindowKey c e)) = true
      ∨ MemoryStorage.get s (FixedWindowRateLimiter.getWindowKey c e)
          ≠ .num (Int.fdiv now windowMs)) :
    FixedWindowRateLimiter.getRemainingRequests c e m windowMs now s = m := by
  simp only [FixedWindowRateLimiter.getRemainingRequests]
  have hcb : (jsFalsy (MemoryStorage.get s (FixedWindowRateLimiter.getWindowKey c e))
      || decide (MemoryStorage.get s (FixedWindowRateLimiter.getWindowKey c e)
        ≠ StorageValue.num (Int.fdiv now windowMs))) = true := by
    rcases hcond with h1 | h1
    · simp [h1]
    · simp [h1]
  rw [hcb]
  simp

end RateLimit

namespace RateLimit

/-- Claim C9, amended: an admitted request decreases
`getRemainingRequests` (evaluated at the same time with no other
intervening operation) by exactly one — for the sliding window in every
state, and for the fixed window in every state whose counter holds a
number, provided the current window id floor(now/windowMs) is at least 1
(in window 0 a stored window id is falsy and the remaining count stays
at maxRequests); and with non-negative maxRequests the remaining count
is never negative, for both strategies. -/
theorem remaining_decreases_by_one
    (c e : String) (m windowMs now : Int) (s : Store) :
    (∀ n : Int,
      MemoryStorage.get s (FixedWindowRateLimiter.getCounterKey c e) = .num n →
      1 ≤ Int.fdiv now windowMs →
      (FixedWindowRateLimiter.isRateLimited c e m windowMs now s).1 = false →
      FixedWindowRateLimiter.getRemainingRequests c e m windowMs now
        (FixedWindowRateLimiter.isRateLimited c e m windowMs now s).2
        = FixedWindowRateLimiter.getRemainingRequests c e m windowMs now s - 1)
    ∧ (1 ≤ windowMs →
      (SlidingWindowRateLimiter.isRateLimited c e m windowMs now s).1 = false →
      SlidingWindowRateLimiter.getRemainingRequests c e m windowMs now
        (SlidingWindowRateLimiter.isRateLimited c e m windowMs now s).2
        = SlidingWindowRateLimiter.getRemainingRequests c e m windowMs now s - 1)
    ∧ (0 ≤ m →
      0 ≤ FixedWindowRateLimiter.getRemainingRequests c e m windowMs now s
      ∧ 0 ≤ SlidingWindowRateLimiter.getRemainingRequests c e m windowMs now s) := by
  have hne : FixedWindowRateLimiter.getCounterKey c e
      ≠ FixedWindowRateLimiter.getWindowKey c e :=
    FixedWindowRateLimiter.counterKey_ne_windowKey c e
  have hnewk : FixedWindowRateLimiter.getWindowKey c e
      ≠ FixedWindowRateLimiter.getCounterKey c e := fun h => hne h.symm
  refine ⟨?_, ?_, ?_⟩
  · -- fixed window
    intro n hc hw1 hfalse
    by_cases hcond : jsFalsy (MemoryStorage.get s
        (FixedWindowRateLimiter.getWindowKey c e)) = true
      ∨ MemoryStorage.get s (FixedWindowRateLimiter.getWindowKey c e)
          ≠ .num (Int.fdiv now windowMs)
    · have hr := fixed_step_fresh c e m windowMs now s hcond
      by_cases hm0 : m ≤ 0
      · rw [hr] at hfalse
        simp [hm0] at hfalse
      · rw [hr] at hfalse ⊢
        simp only [if_neg hm0] at hfalse ⊢
        have h1 : MemoryStorage.get
            (MemoryStorage.set (MemoryStorage.set
              (MemoryStorage.set s (FixedWindowRateLimiter.getCounterKey c e) (.num 0))
              (FixedWindowRateLimiter.getWindowKey c e)
              (.num (Int.fdiv now windowMs)))
              (FixedWindowRateLimiter.getCounterKey c e) (.num 1))
            (FixedWindowRateLimiter.getWindowKey c e)
            = .num (Int.fdiv now windowMs) := by
          rw [MemoryStorage.get_set_ne _ _ _ _ hnewk, MemoryStorage.get_set_self]
        have h2 : MemoryStorage.get
            (MemoryStorage.set (MemoryStorage.set
              (MemoryStorage.set s (FixedWindowRateLimiter.getCounterKey c e) (.num 0))
              (FixedWindowRateLimiter.getWindowKey c e)
              (.num (Int.fdiv now windowMs)))
              (FixedWindowRateLimiter.getCounterKey c e) (.num 1))
            (FixedWindowRateLimiter.getCounterKey c e) = .num 1 :=
          MemoryStorage.get_set_self _ _ _
        rw [fixed_remaining_same_window c e m windowMs now
          (Int.fdiv now windowMs) 1 _ h1 (by omega) rfl h2]
        rw [fixed_remaining_fresh c e m windowMs now s hcond]
        omega
    · push_neg at hcond
      obtain ⟨hfal, heq⟩ := hcond
      have hwnz : Int.fdiv now windowMs ≠ 0 := by omega
      have hr := fixed_step_same_window c e m windowMs now
        (Int.fdiv now windowMs) n s heq hwnz rfl hc
      by_cases hmn : m ≤ n
      · rw [hr] at hfalse
        simp [hmn] at hfalse
      · rw [hr] at hfalse ⊢
        simp only [if_neg hmn] at hfalse ⊢
        have h1 : MemoryStorage.get
            (MemoryStorage.set s (FixedWindowRateLimiter.getCounterKey c e)
              (.num (n + 1)))
            (FixedWindowRateLimiter.getWindowKey c e)
            = .num (Int.fdiv now windowMs) := by
          rw [MemoryStorage.get_set_ne _ _ _ _ hnewk]
          exact heq
        have h2 : MemoryStorage.get
            (MemoryStorage.set s (FixedWindowRateLimiter.getCounterKey c e)
              (.num (n + 1)))
            (FixedWindowRateLimiter.getCounterKey c e) = .num (n + 1) :=
          MemoryStorage.get_set_self _ _ _
        rw [fixed_remaining_same_window c e m windowMs now
          (Int.fdiv now windowMs) (n + 1) _ h1 hwnz rfl h2]
        rw [fixed_remaining_same_window c e m windowMs now
          (Int.fdiv now windowMs) n s heq hwnz rfl hc]
        omega
  · -- sliding window
    intro hwin hfalse
    set key := SlidingWindowRateLimiter.getKey c e with hkey
    set l := SlidingWindowRateLimiter.timestampsOf (MemoryStorage.get s key) with hl
    set f := l.filter (fun t => now - windowMs < t) with hf
    have hrl : SlidingWindowRateLimiter.isRateLimited c e m windowMs now s
        = if m ≤ (f.length : Int) then (true, MemoryStorage.set s key (.arr f))
          else (false, MemoryStorage.set s key (.arr (f ++ [now]))) := rfl
    by_cases hcond : m ≤ (f.length : Int)
    · rw [hrl] at hfalse
      simp [hcond] at hfalse
    · rw [hrl] at hfalse ⊢
      simp only [if_neg hcond] at hfalse ⊢
      have hff : f.filter (fun t => now - windowMs < t) = f := by
        apply List.filter_eq_self.2
        intro a ha
        rw [hf] at ha
        exact (List.mem_filter.1 ha).2
      have hbefore : SlidingWindowRateLimiter.getRemainingRequests c e m windowMs now s
          = max 0 (m - (f.length : Int)) := rfl
      have hafter : SlidingWindowRateLimiter.getRemainingRequests c e m windowMs now
          (MemoryStorage.set s key (.arr (f ++ [now])))
          = max 0 (m - (((f ++ [now]).filter (fun t => now - windowMs < t)).length : Int)) := by
        simp only [SlidingWindowRateLimiter.getRemainingRequests]
        rw [hkey]
        rw [MemoryStorage.get_set_self]
        rfl
      rw [hafter, hbefore, List.filter_append, hff]
      have hc2 : now - windowMs < now := by omega
      simp [hc2]
      omega
  · -- non-negativity
    intro hm
    constructor
    · simp only [FixedWindowRateLimiter.getRemainingRequests]
      cases hcb : (jsFalsy (MemoryStorage.get s (FixedWindowRateLimiter.getWindowKey c e))
          || decide (MemoryStorage.get s (FixedWindowRateLimiter.getWindowKey c e)
            ≠ StorageValue.num (Int.fdiv now windowMs)))
      · simp only [hcb, Bool.false_eq_true, if_false]
        exact le_max_left 0 _
      · simp only [hcb, if_true]
        exact hm
    · simp only [SlidingWindowRateLimiter.getRemainingRequests]
      exact le_max_left 0 _

end RateLimit

namespace RateLimit

/-- Witness for `remaining_decreases_by_one`: window id 2 with counter 1
at time 25 (windowMs 10) for the fixed window, and an empty log for the
sliding window. -/
theorem remaining_decreases_by_one_witness :
    (FixedWindowRateLimiter.getRemainingRequests "c" "e" 3 10 25
        (FixedWindowRateLimiter.isRateLimited "c" "e" 3 10 25
          (MemoryStorage.set (MemoryStorage.set emptyStore
            (FixedWindowRateLimiter.getCounterKey "c" "e") (.num 1))
            (FixedWindowRateLimiter.getWindowKey "c" "e") (.num 2))).2
      = FixedWindowRateLimiter.getRemainingRequests "c" "e" 3 10 25
          (MemoryStorage.set (MemoryStorage.set emptyStore
            (FixedWindowRateLimiter.getCounterKey "c" "e") (.num 1))
            (FixedWindowRateLimiter.getWindowKey "c" "e") (.num 2)) - 1)
    ∧ (SlidingWindowRateLimiter.getRemainingRequests "c" "e" 3 10 25
        (SlidingWindowRateLimiter.isRateLimited "c" "e" 3 10 25
          (MemoryStorage.set (MemoryStorage.set emptyStore
            (FixedWindowRateLimiter.getCounterKey "c" "e") (.num 1))
            (FixedWindowRateLimiter.getWindowKey "c" "e") (.num 2))).2
      = SlidingWindowRateLimiter.getRemainingRequests "c" "e" 3 10 25
          (MemoryStorage.set (MemoryStorage.set emptyStore
            (FixedWindowRateLimiter.getCounterKey "c" "e") (.num 1))
            (FixedWindowRateLimiter.getWindowKey "c" "e") (.num 2)) - 1) :=
  ⟨(remaining_decreases_by_one "c" "e" 3 10 25
      (MemoryStorage.set (MemoryStorage.set emptyStore
        (FixedWindowRateLimiter.getCounterKey "c" "e") (.num 1))
        (FixedWindowRateLimiter.getWindowKey "c" "e") (.num 2))).1
      1 (by decide) (by decide) (by decide),
   (remaining_decreases_by_one "c" "e" 3 10 25
      (MemoryStorage.set (MemoryStorage.set emptyStore
        (FixedWindowRateLimiter.getCounterKey "c" "e") (.num 1))
        (FixedWindowRateLimiter.getWindowKey "c" "e") (.num 2))).2.1
      (by decide) (by decide)⟩

end RateLimit

/-! ## The first maxRequests checks of a window admit, the next rejects -/

namespace RateLimit

/-- The decision pattern of a full window: admissions for the first m
calls, then a rejection. -/
theorem range_decide_replicate (m : Nat) :
    (List.range (m + 1)).map (fun i => decide (m ≤ i))
      = List.replicate m false ++ [true] := by
  rw [List.range_succ, List.map_append]
  have h1 : (List.range m).map (fun i => decide (m ≤ i)) = List.replicate m false := by
    apply List.eq_replicate_iff.2
    refine ⟨by simp, ?_⟩
    intro b hb
    rcases List.mem_map.1 hb with ⟨i, hi, rfl⟩
    have hi2 : i < m := List.mem_range.1 hi
    simp
    omega
  rw [h1]
  simp

/-- Decision trace of a sequence of fixed-window checks inside one
window with id w ≥ 1: with the invariant "window id w and counter k
stored" (or a fresh/stale window with k = 0), the i-th check of the
sequence is rejected exactly when k + i ≥ maxRequests. -/
theorem fixed_run_spec
    (c e : String) (m : Nat) (windowMs w : Int) (hw : 1 ≤ w) :
    ∀ (times : List Int) (k : Nat) (s : Store),
      (∀ t ∈ times, Int.fdiv t windowMs = w) →
      k ≤ m →
      ((MemoryStorage.get s (FixedWindowRateLimiter.getWindowKey c e) = .num w
          ∧ MemoryStorage.get s (FixedWindowRateLimiter.getCounterKey c e) = .num (k : Int))
        ∨ (k = 0
          ∧ (jsFalsy (MemoryStorage.get s (FixedWindowRateLimiter.getWindowKey c e)) = true
            ∨ MemoryStorage.get s (FixedWindowRateLimiter.getWindowKey c e) ≠ .num w))) →
      (FixedWindowRateLimiter.run c e (m : Int) windowMs times s).1
        = (List.range times.length).map (fun i => decide (m ≤ k + i)) := by
  have hne : FixedWindowRateLimiter.getCounterKey c e
      ≠ FixedWindowRateLimiter.getWindowKey c e :=
    FixedWindowRateLimiter.counterKey_ne_windowKey c e
  have hnewk : FixedWindowRateLimiter.getWindowKey c e
      ≠ FixedWindowRateLimiter.getCounterKey c e := fun h => hne h.symm
  intro times
  induction times with
  | nil =>
    intro k s _ _ _
    simp [FixedWindowRateLimiter.run]
  | cons t ts ih =>
    intro k s ht hk hinv
    have hnoww : Int.fdiv t windowMs = w := ht t (by simp)
    have hts : ∀ x ∈ ts, Int.fdiv x windowMs = w := fun x hx => ht x (by simp [hx])
    simp only [FixedWindowRateLimiter.run]
    rw [List.length_cons, List.range_succ_eq_map, List.map_cons, List.map_map]
    rcases hinv with ⟨hwk, hck⟩ | ⟨hk0, hcond⟩
    · have hstep := fixed_step_same_window c e (m : Int) windowMs t w (k : Int) s
        hwk (by omega) hnoww hck
      by_cases hmk : m ≤ k
      · have hmk2 : (m : Int) ≤ (k : Int) := by exact_mod_cast hmk
        rw [hstep, if_pos hmk2]
        simp only [List.cons.injEq]
        constructor
        · simp [hmk]
        · rw [ih k s hts hk (Or.inl ⟨hwk, hck⟩)]
          apply List.map_congr_left
          intro i _
          simp only [Function.comp]
          rw [decide_eq_decide]
          omega
      · have hmk2 : ¬ ((m : Int) ≤ (k : Int)) := by exact_mod_cast hmk
        rw [hstep, if_neg hmk2]
        simp only [List.cons.injEq]
        constructor
        · simp [hmk]
        · have hinv2 : MemoryStorage.get
              (MemoryStorage.set s (FixedWindowRateLimiter.getCounterKey c e)
                (.num ((k : Int) + 1)))
              (FixedWindowRateLimiter.getWindowKey c e) = .num w
              ∧ MemoryStorage.get
              (MemoryStorage.set s (FixedWindowRateLimiter.getCounterKey c e)
                (.num ((k : Int) + 1)))
              (FixedWindowRateLimiter.getCounterKey c e) = .num ((k + 1 : Nat) : Int) := by
            constructor
            · rw [MemoryStorage.get_set_ne _ _ _ _ hnewk]
              exact hwk
            · rw [MemoryStorage.get_set_self]
              norm_num
          rw [ih (k + 1) _ hts (by omega) (Or.inl hinv2)]
          apply List.map_congr_left
          intro i _
          simp only [Function.comp]
          rw [decide_eq_decide]
          omega
    · subst hk0
      rw [← hnoww] at hcond
      have hstep := fixed_step_fresh c e (m : Int) windowMs t s hcond
      rw [hnoww] at hstep
      by_cases hm0 : m = 0
      · have hm02 : (m : Int) ≤ 0 := by omega
        rw [hstep, if_pos hm02]
        simp only [List.cons.injEq]
        constructor
        · simp [hm0]
        · have hinv2 : MemoryStorage.get
              (MemoryStorage.set (MemoryStorage.set s
                (FixedWindowRateLimiter.getCounterKey c e) (.num 0))
                (FixedWindowRateLimiter.getWindowKey c e) (.num w))
              (FixedWindowRateLimiter.getWindowKey c e) = .num w
              ∧ MemoryStorage.get
              (MemoryStorage.set (MemoryStorage.set s
                (FixedWindowRateLimiter.getCounterKey c e) (.num 0))
                (FixedWindowRateLimiter.getWindowKey c e) (.num w))
              (FixedWindowRateLimiter.getCounterKey c e) = .num ((0 : Nat) : Int) := by
            constructor
            · rw [MemoryStorage.get_set_self]
            · rw [MemoryStorage.get_set_ne _ _ _ _ hne, MemoryStorage.get_set_self]
              norm_num
          rw [ih 0 _ hts (by omega) (Or.inl hinv2)]
          apply List.map_congr_left
          intro i _
          simp only [Function.comp]
          rw [decide_eq_decide]
          omega
      · have hm02 : ¬ ((m : Int) ≤ 0) := by omega
        rw [hstep, if_neg hm02]
        simp only [List.cons.injEq]
        constructor
        · simp
          omega
        · have hinv2 : MemoryStorage.get
              (MemoryStorage.set (MemoryStorage.set (MemoryStorage.set s
                (FixedWindowRateLimiter.getCounterKey c e) (.num 0))
                (FixedWindowRateLimiter.getWindowKey c e) (.num w))
                (FixedWindowRateLimiter.getCounterKey c e) (.num 1))
              (FixedWindowRateLimiter.getWindowKey c e) = .num w
              ∧ MemoryStorage.get
              (MemoryStorage.set (MemoryStorage.set (MemoryStorage.set s
                (FixedWindowRateLimiter.getCounterKey c e) (.num 0))
                (FixedWindowRateLimiter.getWindowKey c e) (.num w))
                (FixedWindowRateLimiter.getCounterKey c e) (.num 1))
              (FixedWindowRateLimiter.getCounterKey c e) = .num ((1 : Nat) : Int) := by
            constructor
            · rw [MemoryStorage.get_set_ne _ _ _ _ hnewk, MemoryStorage.get_set_self]
            · rw [MemoryStorage.get_set_self]
              norm_num
          rw [ih 1 _ hts (by omega) (Or.inl hinv2)]
          apply List.map_congr_left
          intro i _
          simp only [Function.comp]
          rw [decide_eq_decide]
          omega

end RateLimit

namespace RateLimit

/-- Decision trace of a sequence of sliding-window checks whose times
all lie in window w: with a stored log of k timestamps from the same
window, the i-th check is rejected exactly when k + i ≥ maxRequests. -/
theorem sliding_run_spec
    (c e : String) (m : Nat) (windowMs w : Int) (hwin : 1 ≤ windowMs) :
    ∀ (times : List Int) (k : Nat) (l : List Int) (s : Store),
      (∀ t ∈ times, Int.fdiv t windowMs = w) →
      k ≤ m →
      SlidingWindowRateLimiter.timestampsOf
        (MemoryStorage.get s (SlidingWindowRateLimiter.getKey c e)) = l →
      l.length = k →
      (∀ x ∈ l, Int.fdiv x windowMs = w) →
      (SlidingWindowRateLimiter.run c e (m : Int) windowMs times s).1
        = (List.range times.length).map (fun i => decide (m ≤ k + i)) := by
  intro times
  induction times with
  | nil =>
    intro k l s _ _ _ _ _
    simp [SlidingWindowRateLimiter.run]
  | cons t ts ih =>
    intro k l s ht hk hstore hlen hl
    have hnoww : Int.fdiv t windowMs = w := ht t (by simp)
    have hts : ∀ x ∈ ts, Int.fdiv x windowMs = w := fun x hx => ht x (by simp [hx])
    have hbt := fdiv_bounds (by omega : (0:Int) < windowMs) hnoww
    have hring : (w + 1) * windowMs = w * windowMs + windowMs := by ring
    have hfilt : l.filter (fun x => t - windowMs < x) = l := by
      apply List.filter_eq_self.2
      intro x hx
      have hbx := fdiv_bounds (by omega : (0:Int) < windowMs) (hl x hx)
      simp only [decide_eq_true_eq]
      linarith [hbx.1, hbt.2]
    have hchar : SlidingWindowRateLimiter.isRateLimited c e (m : Int) windowMs t s
        = if (m : Int) ≤ (((SlidingWindowRateLimiter.timestampsOf
              (MemoryStorage.get s (SlidingWindowRateLimiter.getKey c e))).filter
              (fun x => t - windowMs < x)).length : Int)
          then (true, MemoryStorage.set s (SlidingWindowRateLimiter.getKey c e)
            (.arr ((SlidingWindowRateLimiter.timestampsOf
              (MemoryStorage.get s (SlidingWindowRateLimiter.getKey c e))).filter
              (fun x => t - windowMs < x))))
          else (false, MemoryStorage.set s (SlidingWindowRateLimiter.getKey c e)
            (.arr (((SlidingWindowRateLimiter.timestampsOf
              (MemoryStorage.get s (SlidingWindowRateLimiter.getKey c e))).filter
              (fun x => t - windowMs < x)) ++ [t]))) := rfl
    rw [hstore, hfilt] at hchar
    simp only [SlidingWindowRateLimiter.run]
    rw [List.length_cons, List.range_succ_eq_map, List.map_cons, List.map_map]
    by_cases hmk : m ≤ k
    · have hmk2 : (m : Int) ≤ (l.length : Int) := by
        rw [hlen]; exact_mod_cast hmk
      rw [hchar, if_pos hmk2]
      simp only [List.cons.injEq]
      constructor
      · simp [hmk]
      · rw [ih k l _ hts hk (by rw [MemoryStorage.get_set_self]; exact timestampsOf_arr l) hlen hl]
        apply List.map_congr_left
        intro i _
        simp only [Function.comp]
        rw [decide_eq_decide]
        omega
    · have hmk2 : ¬ ((m : Int) ≤ (l.length : Int)) := by
        rw [hlen]; exact_mod_cast hmk
      rw [hchar, if_neg hmk2]
      simp only [List.cons.injEq]
      constructor
      · simp [hmk]
      · have hl2 : ∀ x ∈ l ++ [t], Int.fdiv x windowMs = w := by
          intro x hx
          rcases List.mem_append.1 hx with h1 | h1
          · exact hl x h1
          · simp at h1
            rw [h1]
            exact hnoww
        rw [ih (k + 1) (l ++ [t]) _ hts (by omega)
          (by rw [MemoryStorage.get_set_self]; exact timestampsOf_arr (l ++ [t]))
          (by simp [hlen]) hl2]
        apply List.map_congr_left
        intro i _
        simp only [Function.comp]
        rw [decide_eq_decide]
        omega

/-- Claim C1, amended: for maxRequests ≥ 1, positive windowMs, and any
sequence of maxRequests + 1 checks whose times all map to the same
window w, starting with no surviving state for the key, the first
maxRequests checks admit and the last one rejects — for the
sliding-window strategy in every window, and for the fixed-window
strategy in every window with id w ≥ 1 (in window 0 the stored window
id 0 is falsy, every check resets the counter, and no request is ever
rejected). -/
theorem first_maxRequests_admit_then_reject
    (c e : String) (m : Nat) (windowMs w : Int) (times : List Int) (s : Store)
    (hm : 1 ≤ m) (hwin : 1 ≤ windowMs)
    (hlen : times.length = m + 1)
    (ht : ∀ t ∈ times, Int.fdiv t windowMs = w)
    (_hck : s (FixedWindowRateLimiter.getCounterKey c e) = none)
    (hwk : s (FixedWindowRateLimiter.getWindowKey c e) = none)
    (hsk : s (SlidingWindowRateLimiter.getKey c e) = none) :
    (1 ≤ w →
      (FixedWindowRateLimiter.run c e (m : Int) windowMs times s).1
        = List.replicate m false ++ [true])
    ∧ (SlidingWindowRateLimiter.run c e (m : Int) windowMs times s).1
        = List.replicate m false ++ [true] := by
  have hshift : (fun i => decide (m ≤ 0 + i)) = (fun i => decide (m ≤ i)) := by
    funext i
    simp
  constructor
  · intro hw
    have hfresh : jsFalsy (MemoryStorage.get s
        (FixedWindowRateLimiter.getWindowKey c e)) = true
      ∨ MemoryStorage.get s (FixedWindowRateLimiter.getWindowKey c e) ≠ .num w := by
      left
      simp [MemoryStorage.get, hwk, jsFalsy]
    have hrun := fixed_run_spec c e m windowMs w hw times 0 s ht (by omega)
      (Or.inr ⟨rfl, hfresh⟩)
    rw [hrun, hlen, hshift, range_decide_replicate]
  · have hstore : SlidingWindowRateLimiter.timestampsOf
        (MemoryStorage.get s (SlidingWindowRateLimiter.getKey c e)) = [] := by
      simp [MemoryStorage.get, hsk, SlidingWindowRateLimiter.timestampsOf]
    have hrun := sliding_run_spec c e m windowMs w hwin times 0 [] s ht (by omega)
      hstore rfl (by simp)
    rw [hrun, hlen, hshift, range_decide_replicate]

end RateLimit

namespace RateLimit

/-- Witness for `first_maxRequests_admit_then_reject`: maxRequests 2,
windowMs 10, three checks at times 10, 12, 15 (window 1) from the empty
store. -/
theorem first_maxRequests_admit_then_reject_witness :
    (FixedWindowRateLimiter.run "c" "e" ((2 : Nat) : Int) 10 [10, 12, 15]
        emptyStore).1 = List.replicate 2 false ++ [true]
    ∧ (SlidingWindowRateLimiter.run "c" "e" ((2 : Nat) : Int) 10 [10, 12, 15]
        emptyStore).1 = List.replicate 2 false ++ [true] :=
  ⟨(first_maxRequests_admit_then_reject "c" "e" 2 10 1 [10, 12, 15] emptyStore
      (by decide) (by decide) (by decide) (by decide) (by decide) (by decide)
      (by decide)).1 (by decide),
   (first_maxRequests_admit_then_reject "c" "e" 2 10 1 [10, 12, 15] emptyStore
      (by decide) (by decide) (by decide) (by decide) (by decide) (by decide)
      (by decide)).2⟩

end RateLimit

/-! ## Isolation across the key namespace -/

namespace RateLimit

/-- `increment` touches no key other than its own. -/
theorem MemoryStorage.increment_apply_ne (s : Store) (k q : String) (h : q ≠ k) :
    MemoryStorage.increment s k q = s q := by
  unfold MemoryStorage.increment
  cases MemoryStorage.get s k <;> exact MemoryStorage.set_apply_ne _ _ _ _ h

/-- A fixed-window check writes only to its own counter and window
keys. -/
theorem fixed_isRateLimited_apply_ne
    (c e : String) (m windowMs now : Int) (s : Store) (q : String)
    (hq1 : q ≠ FixedWindowRateLimiter.getCounterKey c e)
    (hq2 : q ≠ FixedWindowRateLimiter.getWindowKey c e) :
    (FixedWindowRateLimiter.isRateLimited c e m windowMs now s).2 q = s q := by
  have h1 : ∀ (s' : Store),
      MemoryStorage.increment s' (FixedWindowRateLimiter.getCounterKey c e) q = s' q :=
    fun s' => MemoryStorage.increment_apply_ne s' _ q hq1
  have h2 : ∀ (s' : Store) (v : StorageValue),
      MemoryStorage.set s' (FixedWindowRateLimiter.getCounterKey c e) v q = s' q :=
    fun s' v => MemoryStorage.set_apply_ne s' _ q v hq1
  have h3 : ∀ (s' : Store) (v : StorageValue),
      MemoryStorage.set s' (FixedWindowRateLimiter.getWindowKey c e) v q = s' q :=
    fun s' v => MemoryStorage.set_apply_ne s' _ q v hq2
  simp only [FixedWindowRateLimiter.isRateLimited]
  split <;> split <;> simp [h1, h2, h3]

/-- A sliding-window check writes only to its own log key. -/
theorem sliding_isRateLimited_apply_ne
    (c e : String) (m windowMs now : Int) (s : Store) (q : String)
    (hq : q ≠ SlidingWindowRateLimiter.getKey c e) :
    (SlidingWindowRateLimiter.isRateLimited c e m windowMs now s).2 q = s q := by
  have h1 : ∀ (s' : Store) (v : StorageValue),
      MemoryStorage.set s' (SlidingWindowRateLimiter.getKey c e) v q = s' q :=
    fun s' v => MemoryStorage.set_apply_ne s' _ q v hq
  simp only [SlidingWindowRateLimiter.isRateLimited]
  split <;> simp [h1]

/-- Any admission check for a pair writes only to that pair's derived
keys. -/
theorem check_apply_ne
    (c e : String) (ch : Check) (s : Store) (q : String)
    (hq : q ∉ keysOf c e) :
    (ch.apply c e s).2 q = s q := by
  simp only [keysOf, List.mem_cons, List.mem_singleton, not_or] at hq
  obtain ⟨hq1, hq2, hq3⟩ := hq
  cases ch with
  | fixed m w n => exact fixed_isRateLimited_apply_ne c e m w n s q hq1 hq2
  | sliding m w n => exact sliding_isRateLimited_apply_ne c e m w n s q (by simpa using hq3)

/-- A sequence of admission checks for a pair leaves every key outside
the pair's derived keys untouched. -/
theorem runChecks_apply_ne
    (c e : String) (q : String) (hq : q ∉ keysOf c e) :
    ∀ (cs : List Check) (s : Store), runChecks c e cs s q = s q := by
  intro cs
  induction cs with
  | nil => intro s; rfl
  | cons ch rest ih =>
    intro s
    simp only [runChecks]
    rw [ih]
    exact check_apply_ne c e ch s q hq

/-- The fixed-window decision, remaining count and reset time depend
only on the pair's own two keys. -/
theorem fixed_obs_congr
    (c e : String) (m windowMs now : Int) (s' s : Store)
    (h1 : s' (FixedWindowRateLimiter.getCounterKey c e)
      = s (FixedWindowRateLimiter.getCounterKey c e))
    (h2 : s' (FixedWindowRateLimiter.getWindowKey c e)
      = s (FixedWindowRateLimiter.getWindowKey c e)) :
    (FixedWindowRateLimiter.isRateLimited c e m windowMs now s').1
      = (FixedWindowRateLimiter.isRateLimited c e m windowMs now s).1
    ∧ FixedWindowRateLimiter.getRemainingRequests c e m windowMs now s'
      = FixedWindowRateLimiter.getRemainingRequests c e m windowMs now s
    ∧ FixedWindowRateLimiter.getResetTime c e windowMs now s'
      = FixedWindowRateLimiter.getResetTime c e windowMs now s := by
  have hg1 : MemoryStorage.get s' (FixedWindowRateLimiter.getCounterKey c e)
      = MemoryStorage.get s (FixedWindowRateLimiter.getCounterKey c e) := by
    unfold MemoryStorage.get
    rw [h1]
  have hg2 : MemoryStorage.get s' (FixedWindowRateLimiter.getWindowKey c e)
      = MemoryStorage.get s (FixedWindowRateLimiter.getWindowKey c e) := by
    unfold MemoryStorage.get
    rw [h2]
  have hne : FixedWindowRateLimiter.getCounterKey c e
      ≠ FixedWindowRateLimiter.getWindowKey c e :=
    FixedWindowRateLimiter.counterKey_ne_windowKey c e
  refine ⟨?_, ?_, ?_⟩
  · simp only [FixedWindowRateLimiter.isRateLimited, hg1, hg2]
    cases hcb : (jsFalsy (MemoryStorage.get s (FixedWindowRateLimiter.getWindowKey c e))
        || decide (MemoryStorage.get s (FixedWindowRateLimiter.getWindowKey c e)
          ≠ StorageValue.num (Int.fdiv now windowMs)))
    · simp only [hcb, Bool.false_eq_true, if_false, hg1]
      by_cases hmn : m ≤ jsAsNumber
          (MemoryStorage.get s (FixedWindowRateLimiter.getCounterKey c e)) <;>
        simp [hmn]
    · simp only [hcb, if_true]
      rw [MemoryStorage.get_set_ne _ _ _ _ hne, MemoryStorage.get_set_self,
        MemoryStorage.get_set_ne _ _ _ _ hne, MemoryStorage.get_set_self]
      by_cases hmn : m ≤ jsAsNumber (StorageValue.num 0) <;> simp [hmn]
  · simp only [FixedWindowRateLimiter.getRemainingRequests, hg1, hg2]
  · simp only [FixedWindowRateLimiter.getResetTime, hg2]

/-- The sliding-window decision, remaining count and reset time depend
only on the pair's own log key. -/
theorem sliding_obs_congr
    (c e : String) (m windowMs now : Int) (s' s : Store)
    (h : s' (SlidingWindowRateLimiter.getKey c e)
      = s (SlidingWindowRateLimiter.getKey c e)) :
    (SlidingWindowRateLimiter.isRateLimited c e m windowMs now s').1
      = (SlidingWindowRateLimiter.isRateLimited c e m windowMs now s).1
    ∧ SlidingWindowRateLimiter.getRemainingRequests c e m windowMs now s'
      = SlidingWindowRateLimiter.getRemainingRequests c e m windowMs now s
    ∧ SlidingWindowRateLimiter.getResetTime c e windowMs now s'
      = SlidingWindowRateLimiter.getResetTime c e windowMs now s := by
  have hg : MemoryStorage.get s' (SlidingWindowRateLimiter.getKey c e)
      = MemoryStorage.get s (SlidingWindowRateLimiter.getKey c e) := by
    unfold MemoryStorage.get
    rw [h]
  refine ⟨?_, ?_, ?_⟩
  · simp only [SlidingWindowRateLimiter.isRateLimited, hg]
    by_cases hmn : m ≤ (((SlidingWindowRateLimiter.timestampsOf
        (MemoryStorage.get s (SlidingWindowRateLimiter.getKey c e))).filter
        (fun t => now - windowMs < t)).length : Int) <;> simp [hmn]
  · simp only [SlidingWindowRateLimiter.getRemainingRequests, hg]
  · simp only [SlidingWindowRateLimiter.getResetTime, hg]

/-- Claim C3, amended: whenever two (clientId, endpointId) pairs derive
disjoint storage keys — which holds in particular when the ids contain
no ':' separator, but fails for colliding pairs such as ("a:b", "c")
and ("a", "b:c") — no sequence of admission checks for the first pair,
under either strategy against the same storage instance, changes the
decision, remaining count, or reset time observed for the second pair
under either strategy. -/
theorem key_namespace_isolation
    (c1 e1 c2 e2 : String)
    (hkeys : ∀ k1 ∈ keysOf c1 e1, ∀ k2 ∈ keysOf c2 e2, k1 ≠ k2)
    (cs : List Check) (s : Store) (m windowMs now : Int) :
    (FixedWindowRateLimiter.isRateLimited c2 e2 m windowMs now
        (runChecks c1 e1 cs s)).1
      = (FixedWindowRateLimiter.isRateLimited c2 e2 m windowMs now s).1
    ∧ FixedWindowRateLimiter.getRemainingRequests c2 e2 m windowMs now
        (runChecks c1 e1 cs s)
      = FixedWindowRateLimiter.getRemainingRequests c2 e2 m windowMs now s
    ∧ FixedWindowRateLimiter.getResetTime c2 e2 windowMs now
        (runChecks c1 e1 cs s)
      = FixedWindowRateLimiter.getResetTime c2 e2 windowMs now s
    ∧ (SlidingWindowRateLimiter.isRateLimited c2 e2 m windowMs now
        (runChecks c1 e1 cs s)).1
      = (SlidingWindowRateLimiter.isRateLimited c2 e2 m windowMs now s).1
    ∧ SlidingWindowRateLimiter.getRemainingRequests c2 e2 m windowMs now
        (runChecks c1 e1 cs s)
      = SlidingWindowRateLimiter.getRemainingRequests c2 e2 m windowMs now s
    ∧ SlidingWindowRateLimiter.getResetTime c2 e2 windowMs now
        (runChecks c1 e1 cs s)
      = SlidingWindowRateLimiter.getResetTime c2 e2 windowMs now s := by
  have hinv : ∀ k ∈ keysOf c2 e2, runChecks c1 e1 cs s k = s k := by
    intro k hk2
    apply runChecks_apply_ne
    intro hk1
    exact hkeys k hk1 k hk2 rfl
  have hc2 : runChecks c1 e1 cs s (FixedWindowRateLimiter.getCounterKey c2 e2)
      = s (FixedWindowRateLimiter.getCounterKey c2 e2) :=
    hinv _ (by simp [keysOf])
  have hw2 : runChecks c1 e1 cs s (FixedWindowRateLimiter.getWindowKey c2 e2)
      = s (FixedWindowRateLimiter.getWindowKey c2 e2) :=
    hinv _ (by simp [keysOf])
  have hs2 : runChecks c1 e1 cs s (SlidingWindowRateLimiter.getKey c2 e2)
      = s (SlidingWindowRateLimiter.getKey c2 e2) :=
    hinv _ (by simp [keysOf])
  have hfix := fixed_obs_congr c2 e2 m windowMs now (runChecks c1 e1 cs s) s hc2 hw2
  have hsli := sliding_obs_congr c2 e2 m windowMs now (runChecks c1 e1 cs s) s hs2
  exact ⟨hfix.1, hfix.2.1, hfix.2.2, hsli.1, hsli.2.1, hsli.2.2⟩

end RateLimit

namespace RateLimit

/-- Witness for `key_namespace_isolation`: checks for ("a", "b") do not
affect what ("x", "y") observes. -/
theorem key_namespace_isolation_witness :
    (FixedWindowRateLimiter.isRateLimited "x" "y" 5 10 10
        (runChecks "a" "b" [.fixed 1 10 10, .sliding 1 10 10] emptyStore)).1
      = (FixedWindowRateLimiter.isRateLimited "x" "y" 5 10 10 emptyStore).1
    ∧ FixedWindowRateLimiter.getRemainingRequests "x" "y" 5 10 10
        (runChecks "a" "b" [.fixed 1 10 10, .sliding 1 10 10] emptyStore)
      = FixedWindowRateLimiter.getRemainingRequests "x" "y" 5 10 10 emptyStore
    ∧ FixedWindowRateLimiter.getResetTime "x" "y" 10 10
        (runChecks "a" "b" [.fixed 1 10 10, .sliding 1 10 10] emptyStore)
      = FixedWindowRateLimiter.getResetTime "x" "y" 10 10 emptyStore
    ∧ (SlidingWindowRateLimiter.isRateLimited "x" "y" 5 10 10
        (runChecks "a" "b" [.fixed 1 10 10, .sliding 1 10 10] emptyStore)).1
      = (SlidingWindowRateLimiter.isRateLimited "x" "y" 5 10 10 emptyStore).1
    ∧ SlidingWindowRateLimiter.getRemainingRequests "x" "y" 5 10 10
        (runChecks "a" "b" [.fixed 1 10 10, .sliding 1 10 10] emptyStore)
      = SlidingWindowRateLimiter.getRemainingRequests "x" "y" 5 10 10 emptyStore
    ∧ SlidingWindowRateLimiter.getResetTime "x" "y" 10 10
        (runChecks "a" "b" [.fixed 1 10 10, .sliding 1 10 10] emptyStore)
      = SlidingWindowRateLimiter.getResetTime "x" "y" 10 10 emptyStore :=
  key_namespace_isolation "a" "b" "x" "y" (by decide)
    [.fixed 1 10 10, .sliding 1 10 10] emptyStore 5 10 10

end RateLimit
